import Mathlib

/-!
Shallow embedding of the chat controller subsystem of `task-breaker`
(`chat/controller.go` together with the data types of `ai/interface.go`).

Modelling conventions:
* Go `time.Time` values are modelled as `Nat` (nanosecond readings);
  the zero `time.Time{}` is `0`.  Every call of `time.Now()` in the source
  becomes an explicit `Nat` argument of the embedded operation, in the order
  the readings are taken.
* Go's `map[ConversationID]*Conversation` is modelled as an association list;
  mutation through the live `*Conversation` pointer is modelled by writing
  the updated conversation back under the key it was found under.
* Go `len(s)` on a string is the UTF-8 byte length, modelled by
  `String.utf8ByteSize`.
* Go `float64` (temperature) is modelled by `Rat`; no claim depends on
  floating-point rounding.
* The `ai.Backend` interface is modelled by the capabilities the controller
  code under scrutiny uses: `Name()` and `ChatCompletion` (whose outcome is
  an `Except`, pairing Go's `(*ChatCompletionResponse, error)` result).
* Go functions returning `(value, error)` pairs are modelled either by
  `Except String` (when exactly one of the two is non-nil) or by an explicit
  pair of options (`SendMessage`, which can return a response together with
  an error).
-/

/-- `ai.Message`: one chat message (role ∈ {system, user, assistant}). -/
structure Message where
  role : String
  content : String
deriving DecidableEq, Repr

/-- `ai.Choice`: a single completion choice. -/
structure Choice where
  index : Int
  message : Message
  finishReason : String
deriving DecidableEq, Repr

/-- `ai.Usage`: token usage counters. -/
structure Usage where
  promptTokens : Int
  completionTokens : Int
  totalTokens : Int
deriving DecidableEq, Repr

/-- `ai.ChatCompletionRequest`. -/
structure ChatCompletionRequest where
  model : String
  messages : List Message
  maxTokens : Option Int
  temperature : Option Rat
  topP : Option Rat
  stream : Bool
deriving DecidableEq, Repr

/-- `ai.ChatCompletionResponse`. -/
structure ChatCompletionResponse where
  id : String
  object : String
  created : Int
  model : String
  choices : List Choice
  usage : Usage
deriving DecidableEq, Repr

/-- `chat.ChatRequest`. -/
structure ChatRequest where
  conversationId : String
  message : String
  systemPrompt : String
  model : String
  maxTokens : Option Int
  temperature : Option Rat
deriving DecidableEq, Repr

/-- `chat.ChatResponse`.  Go's `Error string` field defaults to `""`. -/
structure ChatResponse where
  conversationId : String
  message : Message
  response : Option ChatCompletionResponse
  error : String
deriving DecidableEq, Repr

/-- `chat.Conversation`. -/
structure Conversation where
  id : String
  messages : List Message
  createdAt : Nat
  updatedAt : Nat
  metadata : List (String × String)
deriving DecidableEq, Repr

/-- The capabilities of `ai.Backend` exercised by the controller code the
claims are about: `Name()` and `ChatCompletion`. -/
structure Backend where
  name : String
  chatCompletion : ChatCompletionRequest → Except String ChatCompletionResponse

/-- `chat.Controller`.  The `sync.RWMutex` is a runtime artefact with no
sequential content and is not part of the state. -/
structure Controller where
  backend : Backend
  conversations : List (String × Conversation)
  defaultModel : String
  maxTokens : Int
  temperature : Rat

/-- `chat.ControllerConfig`. -/
structure ControllerConfig where
  defaultModel : String
  maxTokens : Int
  temperature : Rat
deriving DecidableEq, Repr

/-- `chat.ConversationSummary`. -/
structure ConversationSummary where
  id : String
  messageCount : Nat
  userMessages : Nat
  assistantMessages : Nat
  systemMessages : Nat
  estimatedTokens : Nat
  createdAt : Nat
  updatedAt : Nat
  lastUserMessage : String
  lastAssistantMessage : String
deriving DecidableEq, Repr

/-- `chat.ControllerStats`. -/
structure ControllerStats where
  totalConversations : Nat
  totalMessages : Nat
  backendName : String
  oldestConversation : Nat
  newestConversation : Nat
deriving DecidableEq, Repr

/-! ### The conversation map

Association-list model of Go's `map[ConversationID]*Conversation`. -/

/-- Map lookup, `c.conversations[id]`. -/
def lookupConv : List (String × Conversation) → String → Option Conversation
  | [], _ => none
  | (k, v) :: rest, id => if k = id then some v else lookupConv rest id

/-- Map store, `c.conversations[id] = conv` (also models mutation through a
live `*Conversation` pointer held in the map under `id`). -/
def insertConv : List (String × Conversation) → String → Conversation →
    List (String × Conversation)
  | [], id, conv => [(id, conv)]
  | (k, v) :: rest, id, conv =>
      if k = id then (k, conv) :: rest else (k, v) :: insertConv rest id conv

/-- Map removal, `delete(c.conversations, id)`. -/
def deleteConv : List (String × Conversation) → String → List (String × Conversation)
  | [], _ => []
  | (k, v) :: rest, id => if k = id then rest else (k, v) :: deleteConv rest id

/-! ### Decimal rendering

`fmt.Sprintf("conv_%d_%d", …)`: the `%d` verb prints a natural number in
decimal.  `natRepr` embeds that rendering. -/

/-- Big-endian decimal digits of `n` (empty for `0`), with explicit fuel to
keep the recursion structural; `fuel ≥ n` suffices. -/
def natDigitsAux : Nat → Nat → List Char
  | _, 0 => []
  | 0, _ + 1 => []
  | fuel + 1, n + 1 =>
      natDigitsAux fuel ((n + 1) / 10) ++ [Char.ofNat (48 + (n + 1) % 10)]

/-- Big-endian decimal digits of `n` (empty for `0`). -/
def natDigits (n : Nat) : List Char :=
  natDigitsAux n n

/-- Decimal rendering of a natural number, as produced by `%d`. -/
def natRepr (n : Nat) : String :=
  if n = 0 then "0" else String.mk (natDigits n)

/-- The conversation identifier
`fmt.Sprintf("conv_%d_%d", time.Now().UnixNano(), len(c.conversations))`. -/
def convId (tid count : Nat) : String :=
  "conv_" ++ natRepr tid ++ "_" ++ natRepr count

/-! ### Controller operations (`chat/controller.go`) -/

/-- `NewController`: a nil config is replaced by the default config. -/
def NewController (backend : Backend) (config : Option ControllerConfig) : Controller :=
  let config := config.getD { defaultModel := "gpt-4", maxTokens := 500, temperature := 7/10 }
  { backend := backend
    conversations := []
    defaultModel := config.defaultModel
    maxTokens := config.maxTokens
    temperature := config.temperature }

/-- `CreateConversation`.  The three `time.Now()` readings it takes are the
arguments `tid` (for the identifier), `tc` (`CreatedAt`) and `tu`
(`UpdatedAt`), in source order. -/
def createConversation (c : Controller) (systemPrompt : String) (tid tc tu : Nat) :
    Conversation × Controller :=
  let id := convId tid c.conversations.length
  let conversation : Conversation :=
    { id := id, messages := [], createdAt := tc, updatedAt := tu, metadata := [] }
  let conversation :=
    if systemPrompt ≠ "" then
      { conversation with
          messages := conversation.messages ++ [{ role := "system", content := systemPrompt }] }
    else conversation
  (conversation, { c with conversations := insertConv c.conversations id conversation })

/-- `GetConversation` (pure result part). -/
def getConversation (c : Controller) (id : String) : Except String Conversation :=
  match lookupConv c.conversations id with
  | none => .error ("conversation " ++ id ++ " not found")
  | some conversation => .ok conversation

/-- `GetConversation` as a state-passing operation: the source performs no
write, so the state is passed through. -/
def getConversationS (c : Controller) (id : String) :
    Except String Conversation × Controller :=
  (getConversation c id, c)

/-- `ListConversations` as a state-passing operation (no write in the
source; the result order models one map-iteration order). -/
def listConversationsS (c : Controller) : List Conversation × Controller :=
  (c.conversations.map Prod.snd, c)

/-- `DeleteConversation`: `none` models a nil error. -/
def deleteConversation (c : Controller) (id : String) : Option String × Controller :=
  match lookupConv c.conversations id with
  | none => (some ("conversation " ++ id ++ " not found"), c)
  | some _ => (none, { c with conversations := deleteConv c.conversations id })

/-- The conversation-resolution step of `SendMessage` (lines 144–155): look
the conversation up when `request.ConversationID` is set, create one
otherwise.  Returns the map key alongside the conversation. -/
def resolveConversation (c : Controller) (req : ChatRequest) (tid tc tu : Nat) :
    Except String (String × Conversation × Controller) :=
  if req.conversationId ≠ "" then
    match getConversation c req.conversationId with
    | .error e => .error ("failed to get conversation: " ++ e)
    | .ok conversation => .ok (req.conversationId, conversation, c)
  else
    let (conversation, c1) := createConversation c req.systemPrompt tid tc tu
    .ok (conversation.id, conversation, c1)

/-- Effective model: per-request override or controller default. -/
def resolveModel (c : Controller) (req : ChatRequest) : String :=
  if req.model = "" then c.defaultModel else req.model

/-- Effective max tokens: per-request override or controller default. -/
def resolveMaxTokens (c : Controller) (req : ChatRequest) : Int :=
  match req.maxTokens with
  | none => c.maxTokens
  | some v => v

/-- Effective temperature: per-request override or controller default. -/
def resolveTemperature (c : Controller) (req : ChatRequest) : Rat :=
  match req.temperature with
  | none => c.temperature
  | some v => v

/-- The `ai.ChatCompletionRequest` built by `SendMessage` from the message
snapshot (`msgs`) and the resolved parameters. -/
def sendAiRequest (c : Controller) (req : ChatRequest) (msgs : List Message) :
    ChatCompletionRequest :=
  { model := resolveModel c req
    messages := msgs
    maxTokens := some (resolveMaxTokens c req)
    temperature := some (resolveTemperature c req)
    topP := none
    stream := false }

/-- `SendMessage`.  Clock readings in source order: `tid`, `tc`, `tu` are
consumed by `CreateConversation` when a conversation is created (unused on
the lookup path), `tMsg` is the `UpdatedAt` refresh of the user-message
append, `tAsst` that of the assistant-message append.  The result pairs
Go's `(*ChatResponse, error)` return values. -/
def sendMessage (c : Controller) (req : ChatRequest) (tid tc tu tMsg tAsst : Nat) :
    (Option ChatResponse × Option String) × Controller :=
  match resolveConversation c req tid tc tu with
  | .error e => ((none, some e), c)
  | .ok (key, conversation, c1) =>
    let userMessage : Message := { role := "user", content := req.message }
    -- first critical section: append the user message, refresh UpdatedAt,
    -- snapshot the messages
    let conv1 := { conversation with
                     messages := conversation.messages ++ [userMessage]
                     updatedAt := tMsg }
    let c2 := { c1 with conversations := insertConv c1.conversations key conv1 }
    let aiRequest := sendAiRequest c req conv1.messages
    match c.backend.chatCompletion aiRequest with
    | .error e =>
        ((some { conversationId := conversation.id, message := userMessage,
                 response := none, error := e },
          some e), c2)
    | .ok response =>
      match response.choices with
      | [] =>
          ((some { conversationId := conversation.id, message := userMessage,
                   response := none, error := "no response choices returned" },
            some "no response choices returned"), c2)
      | choice0 :: _ =>
        let assistantMessage := choice0.message
        -- second critical section: append the assistant message
        let conv2 := { conv1 with
                         messages := conv1.messages ++ [assistantMessage]
                         updatedAt := tAsst }
        let c3 := { c2 with conversations := insertConv c2.conversations key conv2 }
        ((some { conversationId := conversation.id, message := assistantMessage,
                 response := some response, error := "" },
          none), c3)

/-- `ClearConversation`: keep only the messages with role `"system"`,
refresh `UpdatedAt` (reading `t`). -/
def clearConversation (c : Controller) (id : String) (t : Nat) :
    Option String × Controller :=
  match lookupConv c.conversations id with
  | none => (some ("conversation " ++ id ++ " not found"), c)
  | some conversation =>
    let systemMessages := conversation.messages.filter (fun msg => msg.role == "system")
    let conv1 := { conversation with messages := systemMessages, updatedAt := t }
    (none, { c with conversations := insertConv c.conversations id conv1 })

/-- `getLastMessageByRole`: content of the last message with the given
role, `""` if none. -/
def getLastMessageByRole (messages : List Message) (role : String) : String :=
  match messages.reverse.find? (fun msg => msg.role == role) with
  | some msg => msg.content
  | none => ""

/-- The counting loop of `GetConversationSummary`: accumulates
(userMessages, assistantMessages, systemMessages, totalTokens), the last
component adding `len(msg.Content) / 4` (integer division) per message. -/
def summaryLoop : List Message → Nat × Nat × Nat × Nat → Nat × Nat × Nat × Nat
  | [], acc => acc
  | msg :: rest, (u, a, s, tok) =>
    let u := if msg.role = "user" then u + 1 else u
    let a := if msg.role = "assistant" then a + 1 else a
    let s := if msg.role = "system" then s + 1 else s
    summaryLoop rest (u, a, s, tok + msg.content.utf8ByteSize / 4)

/-- `GetConversationSummary` (pure result part). -/
def getConversationSummary (c : Controller) (id : String) :
    Except String ConversationSummary :=
  match getConversation c id with
  | .error e => .error e
  | .ok conversation =>
    let (userMessages, assistantMessages, systemMessages, totalTokens) :=
      summaryLoop conversation.messages (0, 0, 0, 0)
    .ok { id := conversation.id
          messageCount := conversation.messages.length
          userMessages := userMessages
          assistantMessages := assistantMessages
          systemMessages := systemMessages
          estimatedTokens := totalTokens
          createdAt := conversation.createdAt
          updatedAt := conversation.updatedAt
          lastUserMessage := getLastMessageByRole conversation.messages "user"
          lastAssistantMessage := getLastMessageByRole conversation.messages "assistant" }

/-- `GetConversationSummary` as a state-passing operation (read-only). -/
def getConversationSummaryS (c : Controller) (id : String) :
    Except String ConversationSummary × Controller :=
  (getConversationSummary c id, c)

/-- The aggregation loop of `GetStats`: accumulates
(totalMessages, oldestConversation, newestConversation). -/
def statsLoop : List Conversation → Nat × Nat × Nat → Nat × Nat × Nat
  | [], acc => acc
  | conv :: rest, (tm, old, new) =>
    statsLoop rest
      (tm + conv.messages.length,
       if conv.createdAt < old then conv.createdAt else old,
       if new < conv.updatedAt then conv.updatedAt else new)

/-- `GetStats`.  `now` is the `time.Now()` reading used to initialise
`oldestConversation`; `newestConversation` starts from the zero time. -/
def getStats (c : Controller) (now : Nat) : ControllerStats :=
  let (totalMessages, oldest, newest) :=
    statsLoop (c.conversations.map Prod.snd) (0, now, 0)
  { totalConversations := c.conversations.length
    totalMessages := totalMessages
    backendName := c.backend.name
    oldestConversation := oldest
    newestConversation := newest }

/-! ### Spec-side definition for the token-estimate refinement (claim C3)

The spec sentence reads: token estimate = sum over messages of
`ceil(length(content) / 4)`.  This definition follows the spec's words, to
be compared with the code's `summaryLoop`. -/

/-- Modelled from the spec's words: `sum over messages of
ceil(length(content) / 4)`. -/
def specEstimatedTokens (messages : List Message) : Nat :=
  (messages.map (fun msg => (msg.content.utf8ByteSize + 3) / 4)).sum

/-! ### Lemmas about the conversation map -/

theorem lookupConv_insertConv_self (l : List (String × Conversation)) (k : String)
    (v : Conversation) : lookupConv (insertConv l k v) k = some v := by
  induction l with
  | nil => simp [insertConv, lookupConv]
  | cons hd tl ih =>
    obtain ⟨k', v'⟩ := hd
    by_cases h : k' = k
    · simp [insertConv, lookupConv, h]
    · simp [insertConv, lookupConv, h, ih]

theorem lookupConv_insertConv_ne (l : List (String × Conversation)) (k k' : String)
    (v : Conversation) (h : k' ≠ k) :
    lookupConv (insertConv l k v) k' = lookupConv l k' := by
  have hne : k ≠ k' := Ne.symm h
  induction l with
  | nil => simp [insertConv, lookupConv, hne]
  | cons hd tl ih =>
    obtain ⟨k₀, v₀⟩ := hd
    by_cases h₀ : k₀ = k
    · subst h₀
      simp [insertConv, lookupConv, hne]
    · simp only [insertConv, if_neg h₀]
      by_cases h₁ : k₀ = k'
      · simp [lookupConv, h₁]
      · simp [lookupConv, h₁, ih]

theorem insertConv_insertConv (l : List (String × Conversation)) (k : String)
    (v w : Conversation) : insertConv (insertConv l k v) k w = insertConv l k w := by
  induction l with
  | nil => simp [insertConv]
  | cons hd tl ih =>
    obtain ⟨k₀, v₀⟩ := hd
    by_cases h : k₀ = k
    · simp [insertConv, h]
    · simp [insertConv, h, ih]

theorem mem_insertConv (l : List (String × Conversation)) (k : String) (v : Conversation)
    (kv : String × Conversation) (h : kv ∈ insertConv l k v) : kv ∈ l ∨ kv = (k, v) := by
  induction l with
  | nil =>
    simp only [insertConv, List.mem_singleton] at h
    exact Or.inr h
  | cons hd tl ih =>
    obtain ⟨k₀, v₀⟩ := hd
    by_cases h₀ : k₀ = k
    · simp only [insertConv, if_pos h₀, List.mem_cons] at h
      rcases h with h | h
      · right
        rw [h, h₀]
      · left
        exact List.mem_cons_of_mem _ h
    · simp only [insertConv, if_neg h₀, List.mem_cons] at h
      rcases h with h | h
      · left
        exact h ▸ List.mem_cons_self _ _
      · rcases ih h with h' | h'
        · exact Or.inl (List.mem_cons_of_mem _ h')
        · exact Or.inr h'

theorem mem_deleteConv (l : List (String × Conversation)) (k : String)
    (kv : String × Conversation) (h : kv ∈ deleteConv l k) : kv ∈ l := by
  induction l with
  | nil =>
    simp only [deleteConv] at h
    exact h
  | cons hd tl ih =>
    obtain ⟨k₀, v₀⟩ := hd
    by_cases h₀ : k₀ = k
    · simp only [deleteConv, if_pos h₀] at h
      exact List.mem_cons_of_mem _ h
    · simp only [deleteConv, if_neg h₀, List.mem_cons] at h
      rcases h with h | h
      · exact h ▸ List.mem_cons_self _ _
      · exact List.mem_cons_of_mem _ (ih h)

theorem lookupConv_mem (l : List (String × Conversation)) (k : String) (v : Conversation)
    (h : lookupConv l k = some v) : (k, v) ∈ l := by
  induction l with
  | nil => simp [lookupConv] at h
  | cons hd tl ih =>
    obtain ⟨k₀, v₀⟩ := hd
    by_cases h₀ : k₀ = k
    · simp only [lookupConv, if_pos h₀] at h
      subst h₀
      obtain rfl : v₀ = v := Option.some.inj h
      exact List.mem_cons_self _ _
    · simp only [lookupConv, if_neg h₀] at h
      exact List.mem_cons_of_mem _ (ih h)

/-! ### Lemmas about the summary loop -/

theorem summaryLoop_tokens (l : List Message) (u a s tok : Nat) :
    (summaryLoop l (u, a, s, tok)).2.2.2 =
      tok + (l.map (fun msg => msg.content.utf8ByteSize / 4)).sum := by
  induction l generalizing u a s tok with
  | nil => simp [summaryLoop]
  | cons msg rest ih =>
    simp only [summaryLoop, ih, List.map_cons, List.sum_cons]
    omega

/-! ### Lemmas about the decimal rendering -/

/-- Numeric value of a big-endian digit string. -/
def digitsVal (l : List Char) : Nat :=
  l.foldl (fun acc c => 10 * acc + (c.toNat - 48)) 0

/-- Numeric value of a rendered string (left inverse of `natRepr`). -/
def natReprVal (s : String) : Nat :=
  digitsVal s.data

theorem toNat_ofNat_digit (r : Nat) (h : r < 10) : (Char.ofNat (48 + r)).toNat = 48 + r := by
  interval_cases r <;> decide

theorem ofNat_digit_ne_underscore (r : Nat) (h : r < 10) : Char.ofNat (48 + r) ≠ '_' := by
  interval_cases r <;> decide

theorem digitsVal_append_digit (l : List Char) (c : Char) :
    digitsVal (l ++ [c]) = 10 * digitsVal l + (c.toNat - 48) := by
  simp [digitsVal, List.foldl_append]

theorem digitsVal_natDigitsAux : ∀ fuel n : Nat, n ≤ fuel →
    digitsVal (natDigitsAux fuel n) = n := by
  intro fuel
  induction fuel with
  | zero =>
    intro n hn
    obtain rfl : n = 0 := Nat.le_zero.mp hn
    simp [natDigitsAux, digitsVal]
  | succ fuel ih =>
    intro n hn
    match n with
    | 0 => simp [natDigitsAux, digitsVal]
    | m + 1 =>
      have hq : (m + 1) / 10 ≤ fuel := by
        have h1 : (m + 1) / 10 < m + 1 := Nat.div_lt_self (Nat.succ_pos m) (by decide)
        omega
      have hr : (m + 1) % 10 < 10 := Nat.mod_lt _ (by decide)
      calc digitsVal (natDigitsAux (fuel + 1) (m + 1))
          = digitsVal (natDigitsAux fuel ((m + 1) / 10) ++
              [Char.ofNat (48 + (m + 1) % 10)]) := rfl
        _ = 10 * digitsVal (natDigitsAux fuel ((m + 1) / 10)) +
              ((Char.ofNat (48 + (m + 1) % 10)).toNat - 48) := digitsVal_append_digit _ _
        _ = 10 * ((m + 1) / 10) + (m + 1) % 10 := by
              rw [ih _ hq, toNat_ofNat_digit _ hr]
              omega
        _ = m + 1 := Nat.div_add_mod _ _

theorem natDigitsAux_ne_underscore : ∀ fuel n : Nat, ∀ c ∈ natDigitsAux fuel n, c ≠ '_' := by
  intro fuel
  induction fuel with
  | zero =>
    intro n c hc
    match n with
    | 0 => simp [natDigitsAux] at hc
    | m + 1 => simp [natDigitsAux] at hc
  | succ fuel ih =>
    intro n c hc
    match n with
    | 0 => simp [natDigitsAux] at hc
    | m + 1 =>
      simp only [natDigitsAux, List.mem_append, List.mem_singleton] at hc
      rcases hc with hc | hc
      · exact ih _ c hc
      · exact hc ▸ ofNat_digit_ne_underscore _ (Nat.mod_lt _ (by decide))

theorem natReprVal_natRepr (n : Nat) : natReprVal (natRepr n) = n := by
  by_cases h : n = 0
  · subst h
    decide
  · rw [natRepr, if_neg h]
    exact digitsVal_natDigitsAux n n le_rfl

theorem natRepr_injective : Function.Injective natRepr := by
  intro a b h
  have := congrArg natReprVal h
  rwa [natReprVal_natRepr, natReprVal_natRepr] at this

theorem natRepr_no_underscore (n : Nat) : '_' ∉ (natRepr n).data := by
  by_cases h : n = 0
  · subst h
    decide
  · rw [natRepr, if_neg h]
    intro hmem
    exact natDigitsAux_ne_underscore n n _ hmem rfl

theorem append_underscore_inj : ∀ l₁ l₂ r₁ r₂ : List Char, '_' ∉ l₁ → '_' ∉ l₂ →
    l₁ ++ '_' :: r₁ = l₂ ++ '_' :: r₂ → l₁ = l₂ ∧ r₁ = r₂ := by
  intro l₁
  induction l₁ with
  | nil =>
    intro l₂ r₁ r₂ h₁ h₂ h
    match l₂ with
    | [] =>
      simp only [List.nil_append, List.cons.injEq] at h
      exact ⟨rfl, h.2⟩
    | d :: l₂' =>
      simp only [List.nil_append, List.cons_append, List.cons.injEq] at h
      exact absurd (h.1 ▸ List.mem_cons_self d l₂') h₂
  | cons c l₁' ih =>
    intro l₂ r₁ r₂ h₁ h₂ h
    match l₂ with
    | [] =>
      simp only [List.cons_append, List.nil_append, List.cons.injEq] at h
      exact absurd (h.1 ▸ List.mem_cons_self c l₁') h₁
    | d :: l₂' =>
      simp only [List.cons_append, List.cons.injEq] at h
      obtain ⟨rfl, h'⟩ := h
      have h₁' : '_' ∉ l₁' := fun hm => h₁ (List.mem_cons_of_mem _ hm)
      have h₂' : '_' ∉ l₂' := fun hm => h₂ (List.mem_cons_of_mem _ hm)
      obtain ⟨hl, hr⟩ := ih l₂' r₁ r₂ h₁' h₂' h'
      exact ⟨by rw [hl], hr⟩

theorem convId_inj (t n t' n' : Nat) (h : convId t n = convId t' n') : t = t' ∧ n = n' := by
  have hd := String.ext_iff.mp h
  have hc : ("conv_" : String).data = ['c', 'o', 'n', 'v', '_'] := rfl
  have hu : ("_" : String).data = ['_'] := rfl
  simp only [convId, String.data_append, hc, hu, List.append_assoc, List.cons_append,
    List.nil_append, List.singleton_append, List.cons.injEq, true_and] at hd
  obtain ⟨h₁, h₂⟩ := append_underscore_inj _ _ _ _ (natRepr_no_underscore t)
    (natRepr_no_underscore t') hd
  exact ⟨natRepr_injective (String.ext h₁), natRepr_injective (String.ext h₂)⟩

theorem convId_ne_of_tid_ne (t n t' n' : Nat) (h : t ≠ t') : convId t n ≠ convId t' n' :=
  fun he => h (convId_inj t n t' n' he).1

/-! ### Characterisation of `SendMessage` -/

/-- The user message constructed by `SendMessage`. -/
def userMessageOf (req : ChatRequest) : Message :=
  { role := "user", content := req.message }

/-- Replace the conversation collection of a controller (notation helper for
stating the effect of the mutating operations). -/
def withConvs (c : Controller) (l : List (String × Conversation)) : Controller :=
  { c with conversations := l }

theorem getConversation_eq_ok (c : Controller) (id : String) (conv : Conversation) :
    getConversation c id = .ok conv ↔ lookupConv c.conversations id = some conv := by
  unfold getConversation
  cases h : lookupConv c.conversations id <;> simp

theorem createConversation_fst (c : Controller) (sp : String) (tid tc tu : Nat) :
    (createConversation c sp tid tc tu).1 =
      { id := convId tid c.conversations.length
        messages := if sp ≠ "" then [{ role := "system", content := sp }] else []
        createdAt := tc
        updatedAt := tu
        metadata := [] } := by
  by_cases hsp : sp ≠ "" <;> simp [createConversation, hsp]

theorem createConversation_snd (c : Controller) (sp : String) (tid tc tu : Nat) :
    (createConversation c sp tid tc tu).2 =
      withConvs c (insertConv c.conversations (convId tid c.conversations.length)
        (createConversation c sp tid tc tu).1) := by
  by_cases hsp : sp ≠ "" <;> simp [createConversation, withConvs, hsp]

theorem resolveConversation_ok (c : Controller) (req : ChatRequest) (tid tc tu : Nat)
    (key : String) (conv : Conversation) (c1 : Controller)
    (h : resolveConversation c req tid tc tu = .ok (key, conv, c1)) :
    (c1 = c ∧ key = req.conversationId ∧ lookupConv c.conversations key = some conv) ∨
    (conv.createdAt = tc ∧ conv.updatedAt = tu ∧ key = conv.id ∧
      c1 = withConvs c (insertConv c.conversations conv.id conv)) := by
  by_cases hid : req.conversationId ≠ ""
  · left
    rw [resolveConversation, if_pos hid] at h
    match hget : getConversation c req.conversationId with
    | .error e =>
      rw [hget] at h
      exact absurd h (by simp)
    | .ok conversation =>
      rw [hget] at h
      have h' : req.conversationId = key ∧ conversation = conv ∧ c = c1 := by simpa using h
      obtain ⟨hk, hv, hc⟩ := h'
      subst hk hv hc
      exact ⟨rfl, rfl, (getConversation_eq_ok c req.conversationId conversation).mp hget⟩
  · right
    rw [resolveConversation, if_neg hid] at h
    have h' : (createConversation c req.systemPrompt tid tc tu).1.id = key ∧
        createConversation c req.systemPrompt tid tc tu = (conv, c1) := by simpa using h
    obtain ⟨hkey, hpc⟩ := h'
    have hconv : (createConversation c req.systemPrompt tid tc tu).1 = conv := by rw [hpc]
    have hc1 : (createConversation c req.systemPrompt tid tc tu).2 = c1 := by rw [hpc]
    subst hkey hconv hc1
    refine ⟨?_, ?_, rfl, ?_⟩
    · rw [createConversation_fst]
    · rw [createConversation_fst]
    · have hcid : (createConversation c req.systemPrompt tid tc tu).1.id =
          convId tid c.conversations.length := by rw [createConversation_fst]
      rw [createConversation_snd, hcid]

theorem sendMessage_resolve_error (c : Controller) (req : ChatRequest)
    (tid tc tu tMsg tAsst : Nat) (e : String)
    (h : resolveConversation c req tid tc tu = .error e) :
    sendMessage c req tid tc tu tMsg tAsst = ((none, some e), c) := by
  rw [sendMessage, h]

theorem sendMessage_backend_error (c : Controller) (req : ChatRequest)
    (tid tc tu tMsg tAsst : Nat) (key : String) (conv : Conversation) (c1 : Controller)
    (e : String)
    (hres : resolveConversation c req tid tc tu = .ok (key, conv, c1))
    (hb : c.backend.chatCompletion
        (sendAiRequest c req (conv.messages ++ [userMessageOf req])) = .error e) :
    sendMessage c req tid tc tu tMsg tAsst =
      ((some { conversationId := conv.id, message := userMessageOf req,
               response := none, error := e }, some e),
       withConvs c1 (insertConv c1.conversations key
         { conv with messages := conv.messages ++ [userMessageOf req],
                     updatedAt := tMsg })) := by
  rw [sendMessage, hres]
  simp only [userMessageOf] at hb ⊢
  rw [hb]
  simp [withConvs]

theorem sendMessage_empty_choices (c : Controller) (req : ChatRequest)
    (tid tc tu tMsg tAsst : Nat) (key : String) (conv : Conversation) (c1 : Controller)
    (resp : ChatCompletionResponse)
    (hres : resolveConversation c req tid tc tu = .ok (key, conv, c1))
    (hb : c.backend.chatCompletion
        (sendAiRequest c req (conv.messages ++ [userMessageOf req])) = .ok resp)
    (hch : resp.choices = []) :
    sendMessage c req tid tc tu tMsg tAsst =
      ((some { conversationId := conv.id, message := userMessageOf req,
               response := none, error := "no response choices returned" },
        some "no response choices returned"),
       withConvs c1 (insertConv c1.conversations key
         { conv with messages := conv.messages ++ [userMessageOf req],
                     updatedAt := tMsg })) := by
  rw [sendMessage, hres]
  simp only [userMessageOf] at hb ⊢
  rw [hb]
  simp [hch, withConvs]

theorem sendMessage_success (c : Controller) (req : ChatRequest)
    (tid tc tu tMsg tAsst : Nat) (key : String) (conv : Conversation) (c1 : Controller)
    (resp : ChatCompletionResponse) (choice0 : Choice) (rest : List Choice)
    (hres : resolveConversation c req tid tc tu = .ok (key, conv, c1))
    (hb : c.backend.chatCompletion
        (sendAiRequest c req (conv.messages ++ [userMessageOf req])) = .ok resp)
    (hch : resp.choices = choice0 :: rest) :
    sendMessage c req tid tc tu tMsg tAsst =
      ((some { conversationId := conv.id, message := choice0.message,
               response := some resp, error := "" }, none),
       withConvs c1 (insertConv c1.conversations key
         { conv with
             messages := conv.messages ++ [userMessageOf req, choice0.message],
             updatedAt := tAsst })) := by
  rw [sendMessage, hres]
  simp only [userMessageOf] at hb ⊢
  rw [hb]
  simp [hch, insertConv_insertConv, List.append_assoc, List.singleton_append, withConvs]

/-! ### Characterisation of `ClearConversation` and `DeleteConversation` -/

theorem clearConversation_some (c : Controller) (id : String) (t : Nat) (conv : Conversation)
    (h : lookupConv c.conversations id = some conv) :
    clearConversation c id t =
      (none, withConvs c (insertConv c.conversations id
        { conv with messages := conv.messages.filter (fun msg => msg.role == "system"),
                    updatedAt := t })) := by
  rw [clearConversation, h]
  simp [withConvs]

theorem clearConversation_none (c : Controller) (id : String) (t : Nat)
    (h : lookupConv c.conversations id = none) :
    clearConversation c id t = (some ("conversation " ++ id ++ " not found"), c) := by
  rw [clearConversation, h]

theorem deleteConversation_some (c : Controller) (id : String) (conv : Conversation)
    (h : lookupConv c.conversations id = some conv) :
    deleteConversation c id = (none, withConvs c (deleteConv c.conversations id)) := by
  rw [deleteConversation, h]
  simp [withConvs]

theorem deleteConversation_none (c : Controller) (id : String)
    (h : lookupConv c.conversations id = none) :
    deleteConversation c id = (some ("conversation " ++ id ++ " not found"), c) := by
  rw [deleteConversation, h]

/-! ### Traces of controller operations and the timestamp invariant -/

/-- One mutating controller operation together with its clock readings. -/
inductive Op where
  | create (systemPrompt : String) (tid tc tu : Nat)
  | send (req : ChatRequest) (tid tc tu tMsg tAsst : Nat)
  | clear (id : String) (t : Nat)
  | delete (id : String)
deriving Repr

/-- State transition of one operation. -/
def applyOp (c : Controller) : Op → Controller
  | .create sp tid tc tu => (createConversation c sp tid tc tu).2
  | .send req tid tc tu tMsg tAsst => (sendMessage c req tid tc tu tMsg tAsst).2
  | .clear id t => (clearConversation c id t).2
  | .delete id => (deleteConversation c id).2

/-- Run a list of operations from a starting state. -/
def runOps (c : Controller) : List Op → Controller
  | [] => c
  | op :: ops => runOps (applyOp c op) ops

/-- The clock readings an operation takes, in source order. -/
def opTimes : Op → List Nat
  | .create _ tid tc tu => [tid, tc, tu]
  | .send _ tid tc tu tMsg tAsst => [tid, tc, tu, tMsg, tAsst]
  | .clear _ t => [t]
  | .delete _ => []

/-- `chainFrom lo ts`: the readings `ts` are non-decreasing, starting at or
after `lo` (a monotone clock). -/
def chainFrom : Nat → List Nat → Prop
  | _, [] => True
  | lo, t :: ts => lo ≤ t ∧ chainFrom t ts

/-- The clock value after an operation (its last reading; `lo` if it takes
none). -/
def opEnd (lo : Nat) : Op → Nat
  | .create _ _ _ tu => tu
  | .send _ _ _ _ _ tAsst => tAsst
  | .clear _ t => t
  | .delete _ => lo

/-- Monotone-clock discipline along a whole trace. -/
def traceMono : Nat → List Op → Prop
  | _, [] => True
  | lo, op :: ops => chainFrom lo (opTimes op) ∧ traceMono (opEnd lo op) ops

/-- Timestamp invariant of the stored conversations:
`createdAt ≤ updatedAt ≤ lo` for every entry. -/
def timeInvL (lo : Nat) (l : List (String × Conversation)) : Prop :=
  ∀ kv ∈ l, kv.2.createdAt ≤ kv.2.updatedAt ∧ kv.2.updatedAt ≤ lo

theorem timeInvL_mono {lo hi : Nat} (h : lo ≤ hi) {l : List (String × Conversation)}
    (hl : timeInvL lo l) : timeInvL hi l :=
  fun kv hkv => ⟨(hl kv hkv).1, le_trans (hl kv hkv).2 h⟩

theorem timeInvL_insert {lo : Nat} {l : List (String × Conversation)}
    (hl : timeInvL lo l) {k : String} {v : Conversation}
    (h1 : v.createdAt ≤ v.updatedAt) (h2 : v.updatedAt ≤ lo) :
    timeInvL lo (insertConv l k v) := by
  intro kv hkv
  rcases mem_insertConv l k v kv hkv with h | h
  · exact hl kv h
  · rw [h]
    exact ⟨h1, h2⟩

theorem timeInvL_delete {lo : Nat} {l : List (String × Conversation)}
    (hl : timeInvL lo l) (k : String) : timeInvL lo (deleteConv l k) :=
  fun kv hkv => hl kv (mem_deleteConv l k kv hkv)

theorem timeInv_create (c : Controller) (sp : String) (tid tc tu lo : Nat)
    (hinv : timeInvL lo c.conversations) (hch : chainFrom lo [tid, tc, tu]) :
    timeInvL tu (createConversation c sp tid tc tu).2.conversations := by
  obtain ⟨h1, h2, h3, -⟩ : lo ≤ tid ∧ tid ≤ tc ∧ tc ≤ tu ∧ True := by
    simpa [chainFrom] using hch
  rw [createConversation_snd]
  simp only [withConvs]
  refine timeInvL_insert (timeInvL_mono (by omega) hinv) ?_ ?_
  · rw [createConversation_fst]
    exact h3
  · rw [createConversation_fst]

theorem timeInv_send (c : Controller) (req : ChatRequest) (tid tc tu tMsg tAsst lo : Nat)
    (hinv : timeInvL lo c.conversations) (hch : chainFrom lo [tid, tc, tu, tMsg, tAsst]) :
    timeInvL tAsst (sendMessage c req tid tc tu tMsg tAsst).2.conversations := by
  obtain ⟨h1, h2, h3, h4, h5, -⟩ :
      lo ≤ tid ∧ tid ≤ tc ∧ tc ≤ tu ∧ tu ≤ tMsg ∧ tMsg ≤ tAsst ∧ True := by
    simpa [chainFrom] using hch
  match hres : resolveConversation c req tid tc tu with
  | .error e =>
    rw [sendMessage_resolve_error _ _ _ _ _ _ _ _ hres]
    exact timeInvL_mono (by omega) hinv
  | .ok (key, conv, c1) =>
    have hfacts : (conv.createdAt ≤ conv.updatedAt ∧ conv.updatedAt ≤ tu) ∧
        timeInvL tu c1.conversations := by
      rcases resolveConversation_ok c req tid tc tu key conv c1 hres with
        ⟨hc1, hkey, hlook⟩ | ⟨hca, hcu, hkey, hc1⟩
      · have hc : conv.createdAt ≤ conv.updatedAt ∧ conv.updatedAt ≤ lo :=
          hinv (key, conv) (lookupConv_mem _ _ _ hlook)
        exact ⟨⟨hc.1, by omega⟩, hc1 ▸ timeInvL_mono (by omega) hinv⟩
      · refine ⟨⟨by omega, by omega⟩, ?_⟩
        rw [hc1]
        simp only [withConvs]
        exact timeInvL_insert (timeInvL_mono (by omega) hinv) (by omega) (by omega)
    obtain ⟨⟨hca, hcu⟩, hc1inv⟩ := hfacts
    match hb : c.backend.chatCompletion
        (sendAiRequest c req (conv.messages ++ [userMessageOf req])) with
    | .error e =>
      rw [sendMessage_backend_error _ _ _ _ _ _ _ _ _ _ e hres hb]
      simp only [withConvs]
      refine timeInvL_insert (timeInvL_mono (by omega) hc1inv) ?_ ?_
      · show conv.createdAt ≤ tMsg
        omega
      · show tMsg ≤ tAsst
        omega
    | .ok resp =>
      match hch0 : resp.choices with
      | [] =>
        rw [sendMessage_empty_choices _ _ _ _ _ _ _ _ _ _ resp hres hb hch0]
        simp only [withConvs]
        refine timeInvL_insert (timeInvL_mono (by omega) hc1inv) ?_ ?_
        · show conv.createdAt ≤ tMsg
          omega
        · show tMsg ≤ tAsst
          omega
      | choice0 :: rest =>
        rw [sendMessage_success _ _ _ _ _ _ _ _ _ _ resp choice0 rest hres hb hch0]
        simp only [withConvs]
        refine timeInvL_insert (timeInvL_mono (by omega) hc1inv) ?_ ?_
        · show conv.createdAt ≤ tAsst
          omega
        · show tAsst ≤ tAsst
          omega

theorem timeInv_clear (c : Controller) (id : String) (t lo : Nat)
    (hinv : timeInvL lo c.conversations) (hch : chainFrom lo [t]) :
    timeInvL t (clearConversation c id t).2.conversations := by
  obtain ⟨h1, -⟩ : lo ≤ t ∧ True := by simpa [chainFrom] using hch
  match hl : lookupConv c.conversations id with
  | none =>
    rw [clearConversation_none _ _ _ hl]
    exact timeInvL_mono h1 hinv
  | some conv =>
    rw [clearConversation_some _ _ _ _ hl]
    simp only [withConvs]
    have hc : conv.createdAt ≤ conv.updatedAt ∧ conv.updatedAt ≤ lo :=
      hinv (id, conv) (lookupConv_mem _ _ _ hl)
    refine timeInvL_insert (timeInvL_mono h1 hinv) ?_ ?_
    · show conv.createdAt ≤ t
      omega
    · show t ≤ t
      omega

theorem timeInv_delete (c : Controller) (id : String) (lo : Nat)
    (hinv : timeInvL lo c.conversations) :
    timeInvL lo (deleteConversation c id).2.conversations := by
  match hl : lookupConv c.conversations id with
  | none =>
    rw [deleteConversation_none _ _ hl]
    exact hinv
  | some conv =>
    rw [deleteConversation_some _ _ _ hl]
    simp only [withConvs]
    exact timeInvL_delete hinv id

theorem timeInv_applyOp (c : Controller) (op : Op) (lo : Nat)
    (hinv : timeInvL lo c.conversations) (hch : chainFrom lo (opTimes op)) :
    timeInvL (opEnd lo op) (applyOp c op).conversations := by
  match op with
  | .create sp tid tc tu => exact timeInv_create c sp tid tc tu lo hinv hch
  | .send req tid tc tu tMsg tAsst => exact timeInv_send c req tid tc tu tMsg tAsst lo hinv hch
  | .clear id t => exact timeInv_clear c id t lo hinv hch
  | .delete id => exact timeInv_delete c id lo hinv

theorem timeInv_runOps (ops : List Op) : ∀ (c : Controller) (lo : Nat),
    timeInvL lo c.conversations → traceMono lo ops →
    ∀ kv ∈ (runOps c ops).conversations, kv.2.createdAt ≤ kv.2.updatedAt := by
  induction ops with
  | nil =>
    intro c lo hinv _ kv hkv
    exact (hinv kv hkv).1
  | cons op ops ih =>
    intro c lo hinv htm
    obtain ⟨hch, htm'⟩ := htm
    exact ih (applyOp c op) (opEnd lo op) (timeInv_applyOp c op lo hinv hch) htm'

/-! ### Concrete fixtures for witnesses and counterexamples -/

/-- A backend whose dispatch always fails. -/
def backendDown : Backend :=
  { name := "mock", chatCompletion := fun _ => .error "backend down" }

/-- A completion payload with two choices. -/
def respFix : ChatCompletionResponse :=
  { id := "r1", object := "chat.completion", created := 1, model := "mock-model",
    choices :=
      [{ index := 0, message := { role := "assistant", content := "hi" },
         finishReason := "stop" },
       { index := 1, message := { role := "assistant", content := "alt" },
         finishReason := "stop" }],
    usage := { promptTokens := 1, completionTokens := 1, totalTokens := 2 } }

/-- A completion payload with zero choices. -/
def respNoChoices : ChatCompletionResponse :=
  { id := "r2", object := "chat.completion", created := 1, model := "mock-model",
    choices := [], usage := { promptTokens := 1, completionTokens := 0, totalTokens := 1 } }

/-- A backend whose dispatch always succeeds with `respFix`. -/
def backendOk : Backend :=
  { name := "mock", chatCompletion := fun _ => .ok respFix }

/-- A backend whose dispatch succeeds but returns zero choices. -/
def backendNoChoices : Backend :=
  { name := "mock", chatCompletion := fun _ => .ok respNoChoices }

/-- A stored conversation with one system message. -/
def convFixA : Conversation :=
  { id := "A", messages := [{ role := "system", content := "be helpful" }],
    createdAt := 1, updatedAt := 2, metadata := [] }

/-- A chat request addressed to conversation `"A"`. -/
def reqFixA : ChatRequest :=
  { conversationId := "A", message := "hello", systemPrompt := "", model := "",
    maxTokens := none, temperature := none }

/-- Controller holding `convFixA`, with the succeeding backend. -/
def ctrlOkA : Controller :=
  { backend := backendOk, conversations := [("A", convFixA)],
    defaultModel := "gpt-4", maxTokens := 500, temperature := 7/10 }

/-- Controller holding `convFixA`, with the failing backend. -/
def ctrlDownA : Controller :=
  { backend := backendDown, conversations := [("A", convFixA)],
    defaultModel := "gpt-4", maxTokens := 500, temperature := 7/10 }

/-- Controller holding `convFixA`, with the zero-choice backend. -/
def ctrlNoChoicesA : Controller :=
  { backend := backendNoChoices, conversations := [("A", convFixA)],
    defaultModel := "gpt-4", maxTokens := 500, temperature := 7/10 }

/-! ### Claim C1 -/

/-- **C1.** Whenever `SendMessage` has resolved a conversation (looked up or
freshly created) and the backend dispatch succeeds with at least one choice,
the stored conversation's message list afterwards is its prior list extended
by exactly two messages — the user message `{role: user, content:
request.message}` first, then the first returned choice's message (later
choices are not stored) — and the returned `ChatResponse` carries that
assistant message together with the raw completion payload. -/
theorem c1_sendMessage_success_appends_user_then_first_choice
    (c : Controller) (req : ChatRequest) (tid tc tu tMsg tAsst : Nat)
    (key : String) (conv : Conversation) (c1 : Controller)
    (resp : ChatCompletionResponse) (choice0 : Choice) (rest : List Choice)
    (hres : resolveConversation c req tid tc tu = .ok (key, conv, c1))
    (hb : c.backend.chatCompletion
        (sendAiRequest c req (conv.messages ++ [userMessageOf req])) = .ok resp)
    (hch : resp.choices = choice0 :: rest) :
    lookupConv (sendMessage c req tid tc tu tMsg tAsst).2.conversations key =
      some { conv with
               messages := conv.messages ++ [userMessageOf req, choice0.message],
               updatedAt := tAsst } ∧
    (sendMessage c req tid tc tu tMsg tAsst).1 =
      (some { conversationId := conv.id, message := choice0.message,
              response := some resp, error := "" }, none) := by
  rw [sendMessage_success c req tid tc tu tMsg tAsst key conv c1 resp choice0 rest hres hb hch]
  exact ⟨lookupConv_insertConv_self _ _ _, rfl⟩

/-- Witness for C1: the concrete conversation `"A"` under the succeeding
backend grows by exactly the user message and the first choice. -/
theorem c1_witness :
    lookupConv (sendMessage ctrlOkA reqFixA 0 0 0 10 11).2.conversations "A" =
      some { convFixA with
               messages := convFixA.messages ++
                 [userMessageOf reqFixA, { role := "assistant", content := "hi" }],
               updatedAt := 11 } ∧
    (sendMessage ctrlOkA reqFixA 0 0 0 10 11).1 =
      (some { conversationId := "A", message := { role := "assistant", content := "hi" },
              response := some respFix, error := "" }, none) :=
  c1_sendMessage_success_appends_user_then_first_choice ctrlOkA reqFixA 0 0 0 10 11
    "A" convFixA ctrlOkA respFix
    { index := 0, message := { role := "assistant", content := "hi" }, finishReason := "stop" }
    [{ index := 1, message := { role := "assistant", content := "alt" }, finishReason := "stop" }]
    rfl rfl rfl

/-! ### Claim C2 -/

/-- **C2.** Whenever `SendMessage` has resolved a conversation and the
backend dispatch fails, or succeeds with zero choices, `SendMessage` returns
an error together with a `ChatResponse` carrying the conversation id, the
already-appended user message and the error description, and the stored
conversation has grown by exactly the user message (no assistant message). -/
theorem c2_sendMessage_failure_keeps_only_user_message
    (c : Controller) (req : ChatRequest) (tid tc tu tMsg tAsst : Nat)
    (key : String) (conv : Conversation) (c1 : Controller)
    (hres : resolveConversation c req tid tc tu = .ok (key, conv, c1)) :
    (∀ e, c.backend.chatCompletion
        (sendAiRequest c req (conv.messages ++ [userMessageOf req])) = .error e →
      sendMessage c req tid tc tu tMsg tAsst =
        ((some { conversationId := conv.id, message := userMessageOf req,
                 response := none, error := e }, some e),
         withConvs c1 (insertConv c1.conversations key
           { conv with messages := conv.messages ++ [userMessageOf req],
                       updatedAt := tMsg }))) ∧
    (∀ resp, c.backend.chatCompletion
        (sendAiRequest c req (conv.messages ++ [userMessageOf req])) = .ok resp →
      resp.choices = [] →
      sendMessage c req tid tc tu tMsg tAsst =
        ((some { conversationId := conv.id, message := userMessageOf req,
                 response := none, error := "no response choices returned" },
          some "no response choices returned"),
         withConvs c1 (insertConv c1.conversations key
           { conv with messages := conv.messages ++ [userMessageOf req],
                       updatedAt := tMsg }))) := by
  constructor
  · intro e hb
    exact sendMessage_backend_error c req tid tc tu tMsg tAsst key conv c1 e hres hb
  · intro resp hb hch
    exact sendMessage_empty_choices c req tid tc tu tMsg tAsst key conv c1 resp hres hb hch

/-- Witness for C2: the failing backend and the zero-choice backend each
leave exactly the user message appended on conversation `"A"`. -/
theorem c2_witness :
    sendMessage ctrlDownA reqFixA 0 0 0 10 11 =
      ((some { conversationId := "A", message := userMessageOf reqFixA,
               response := none, error := "backend down" }, some "backend down"),
       withConvs ctrlDownA (insertConv ctrlDownA.conversations "A"
         { convFixA with messages := convFixA.messages ++ [userMessageOf reqFixA],
                         updatedAt := 10 })) ∧
    sendMessage ctrlNoChoicesA reqFixA 0 0 0 10 11 =
      ((some { conversationId := "A", message := userMessageOf reqFixA,
               response := none, error := "no response choices returned" },
        some "no response choices returned"),
       withConvs ctrlNoChoicesA (insertConv ctrlNoChoicesA.conversations "A"
         { convFixA with messages := convFixA.messages ++ [userMessageOf reqFixA],
                         updatedAt := 10 })) :=
  ⟨(c2_sendMessage_failure_keeps_only_user_message ctrlDownA reqFixA 0 0 0 10 11
      "A" convFixA ctrlDownA rfl).1 "backend down" rfl,
   (c2_sendMessage_failure_keeps_only_user_message ctrlNoChoicesA reqFixA 0 0 0 10 11
      "A" convFixA ctrlNoChoicesA rfl).2 respNoChoices rfl rfl⟩

/-! ### Claims C3 and C8: conversation summaries -/

theorem getConversationSummary_eq (c : Controller) (id : String) (conv : Conversation)
    (h : lookupConv c.conversations id = some conv) :
    getConversationSummary c id = .ok
      { id := conv.id
        messageCount := conv.messages.length
        userMessages := (summaryLoop conv.messages (0, 0, 0, 0)).1
        assistantMessages := (summaryLoop conv.messages (0, 0, 0, 0)).2.1
        systemMessages := (summaryLoop conv.messages (0, 0, 0, 0)).2.2.1
        estimatedTokens := (summaryLoop conv.messages (0, 0, 0, 0)).2.2.2
        createdAt := conv.createdAt
        updatedAt := conv.updatedAt
        lastUserMessage := getLastMessageByRole conv.messages "user"
        lastAssistantMessage := getLastMessageByRole conv.messages "assistant" } := by
  have hg : getConversation c id = .ok conv := (getConversation_eq_ok c id conv).mpr h
  obtain ⟨⟨u, a, s0, tok⟩, hsum⟩ : ∃ x, summaryLoop conv.messages (0, 0, 0, 0) = x :=
    ⟨_, rfl⟩
  rw [getConversationSummary, hg]

/-- A conversation whose single message has content of byte length 3. -/
def convTok : Conversation :=
  { id := "T", messages := [{ role := "user", content := "abc" }],
    createdAt := 1, updatedAt := 1, metadata := [] }

/-- Controller holding `convTok`. -/
def ctrlTok : Controller :=
  { backend := backendDown, conversations := [("T", convTok)],
    defaultModel := "gpt-4", maxTokens := 500, temperature := 7/10 }

/-- **C3, counterexample.**  On a conversation with one message of content
length 3 the code's token estimate is `3 / 4 = 0`, not the spec's
`ceil(3 / 4) = 1`: the claimed equality fails at this input. -/
theorem c3_counterexample :
    (getConversationSummary ctrlTok "T").toOption.map (fun s => s.estimatedTokens) ≠
      some (specEstimatedTokens convTok.messages) := by
  decide

/-- **C3, amended.**  For every conversation present in the store the
summary's `EstimatedTokens` equals the sum over all messages of
`floor(length(content) / 4)` (Go integer division), not the ceiling. -/
theorem c3_estimated_tokens_is_floor_sum (c : Controller) (id : String)
    (conv : Conversation) (h : lookupConv c.conversations id = some conv) :
    ∃ s, getConversationSummary c id = .ok s ∧
      s.estimatedTokens =
        (conv.messages.map (fun msg => msg.content.utf8ByteSize / 4)).sum := by
  refine ⟨_, getConversationSummary_eq c id conv h, ?_⟩
  have := summaryLoop_tokens conv.messages 0 0 0 0
  simpa using this

/-- Witness for C3 (amended): on `convTok` the summary exists and reports
the floor-sum `0`. -/
theorem c3_witness :
    ∃ s, getConversationSummary ctrlTok "T" = .ok s ∧
      s.estimatedTokens =
        (convTok.messages.map (fun msg => msg.content.utf8ByteSize / 4)).sum :=
  c3_estimated_tokens_is_floor_sum ctrlTok "T" convTok rfl

/-- **C8.** For every conversation present in the store, the summary's
`MessageCount` equals the length of the message list that `GetConversation`
returns for the same id. -/
theorem c8_summary_messageCount_eq_messages_length (c : Controller) (id : String)
    (conv : Conversation) (h : lookupConv c.conversations id = some conv) :
    getConversation c id = .ok conv ∧
    ∃ s, getConversationSummary c id = .ok s ∧
      s.messageCount = conv.messages.length := by
  exact ⟨(getConversation_eq_ok c id conv).mpr h,
    ⟨_, getConversationSummary_eq c id conv h, rfl⟩⟩

/-- Witness for C8 on the concrete conversation `"A"`. -/
theorem c8_witness :
    getConversation ctrlOkA "A" = .ok convFixA ∧
    ∃ s, getConversationSummary ctrlOkA "A" = .ok s ∧
      s.messageCount = convFixA.messages.length :=
  c8_summary_messageCount_eq_messages_length ctrlOkA "A" convFixA rfl

/-! ### Claim C4: identifier uniqueness -/

/-- **C4, counterexample.**  With equal nanosecond clock readings across the
calls (`tid = 0` each time), create → delete → create reproduces the deleted
identifier `"conv_0_0"`: the identifiers returned by `CreateConversation`
are not pairwise distinct, and a deleted identifier is returned again. -/
theorem c4_counterexample :
    (createConversation (NewController backendDown none) "" 0 0 0).1.id = "conv_0_0" ∧
    (deleteConversation
        (createConversation (NewController backendDown none) "" 0 0 0).2 "conv_0_0").1 =
      none ∧
    (createConversation
        (deleteConversation
          (createConversation (NewController backendDown none) "" 0 0 0).2 "conv_0_0").2
        "" 0 0 0).1.id = "conv_0_0" := by
  refine ⟨rfl, rfl, rfl⟩

/-- **C4, amended.**  Provided the nanosecond clock readings observed by two
`CreateConversation` calls differ (as with a strictly increasing clock), the
returned identifiers differ — regardless of the controller states, so in
particular identifiers are pairwise distinct along any trace with strictly
increasing readings and a deleted identifier is never produced again. -/
theorem c4_create_ids_distinct_for_distinct_clock
    (c c' : Controller) (sp sp' : String) (tid tc tu tid' tc' tu' : Nat)
    (h : tid ≠ tid') :
    (createConversation c sp tid tc tu).1.id ≠ (createConversation c' sp' tid' tc' tu').1.id := by
  rw [createConversation_fst, createConversation_fst]
  exact convId_ne_of_tid_ne _ _ _ _ h

/-- Witness for C4 (amended): readings 0 and 1 give distinct identifiers on
the empty controller. -/
theorem c4_witness :
    (createConversation (NewController backendDown none) "" 0 0 0).1.id ≠
      (createConversation (NewController backendDown none) "" 1 1 1).1.id :=
  c4_create_ids_distinct_for_distinct_clock (NewController backendDown none)
    (NewController backendDown none) "" "" 0 0 0 1 1 1 (by decide)

/-! ### Claim C5: clearing a conversation -/

/-- Modelled from the spec's words for C5: the "leading system message(s)"
of a message list, i.e. its longest prefix of role-`system` messages. -/
def specLeadingSystem (messages : List Message) : List Message :=
  messages.takeWhile (fun msg => msg.role == "system")

/-- A conversation whose system message is not in leading position. -/
def convC5 : Conversation :=
  { id := "B",
    messages := [{ role := "user", content := "u" }, { role := "system", content := "s" }],
    createdAt := 1, updatedAt := 1, metadata := [] }

/-- Controller holding `convC5`. -/
def ctrlC5 : Controller :=
  { backend := backendDown, conversations := [("B", convC5)],
    defaultModel := "gpt-4", maxTokens := 500, temperature := 7/10 }

/-- **C5, counterexample.**  On a store whose conversation holds a
non-leading system message, `ClearConversation` keeps that message, so the
resulting list is not the previously-present leading system prefix (which is
empty here): the claim fails at this input. -/
theorem c5_counterexample :
    (lookupConv (clearConversation ctrlC5 "B" 9).2.conversations "B").map
        (fun conv => conv.messages) ≠
      some (specLeadingSystem convC5.messages) := by
  decide

/-- **C5, amended.**  `ClearConversation` on a present id replaces the
message list with exactly the messages of role `system` previously present
(all of them, in order — not only the leading prefix), so afterwards every
remaining message has role `system` and the non-system count is `0`, and it
refreshes `updatedAt` to the call's clock reading; on an absent id it fails
with a not-found error and leaves the state unchanged. -/
theorem c5_clear_keeps_exactly_system_messages (c : Controller) (id : String) (t : Nat) :
    (∀ conv, lookupConv c.conversations id = some conv →
      clearConversation c id t =
        (none, withConvs c (insertConv c.conversations id
          { conv with
              messages := conv.messages.filter (fun msg => msg.role == "system"),
              updatedAt := t })) ∧
      (∀ msg ∈ conv.messages.filter (fun msg => msg.role == "system"),
        msg.role = "system") ∧
      (conv.messages.filter (fun msg => msg.role == "system")).countP
          (fun msg => !(msg.role == "system")) = 0) ∧
    (lookupConv c.conversations id = none →
      clearConversation c id t = (some ("conversation " ++ id ++ " not found"), c)) := by
  constructor
  · intro conv h
    refine ⟨clearConversation_some c id t conv h, ?_, ?_⟩
    · intro msg hmsg
      have hm := List.mem_filter.mp hmsg
      simpa using hm.2
    · rw [List.countP_eq_zero]
      intro msg hmsg
      have hm := List.mem_filter.mp hmsg
      simpa using hm.2
  · intro h
    exact clearConversation_none c id t h

/-- Witness for C5 (amended), on the concrete store `ctrlC5`. -/
theorem c5_witness :
    clearConversation ctrlC5 "B" 9 =
      (none, withConvs ctrlC5 (insertConv ctrlC5.conversations "B"
        { convC5 with
            messages := convC5.messages.filter (fun msg => msg.role == "system"),
            updatedAt := 9 })) ∧
    clearConversation ctrlC5 "Z" 9 =
      (some ("conversation " ++ "Z" ++ " not found"), ctrlC5) :=
  ⟨((c5_clear_keeps_exactly_system_messages ctrlC5 "B" 9).1 convC5 rfl).1,
   (c5_clear_keeps_exactly_system_messages ctrlC5 "Z" 9).2 rfl⟩

/-! ### Claim C6: absent identifiers -/

/-- **C6.** For an identifier absent from the collection, `GetConversation`,
`DeleteConversation`, `ClearConversation` and `GetConversationSummary` each
return a not-found error and leave the controller state unchanged, and
`SendMessage` with that identifier set returns an error without creating a
conversation or appending any message (state unchanged). -/
theorem c6_absent_id_errors_leave_state_unchanged (c : Controller) (id : String)
    (h : lookupConv c.conversations id = none) (hne : id ≠ "") :
    getConversationS c id = (.error ("conversation " ++ id ++ " not found"), c) ∧
    deleteConversation c id = (some ("conversation " ++ id ++ " not found"), c) ∧
    (∀ t, clearConversation c id t = (some ("conversation " ++ id ++ " not found"), c)) ∧
    getConversationSummaryS c id = (.error ("conversation " ++ id ++ " not found"), c) ∧
    (∀ req tid tc tu tMsg tAsst, req.conversationId = id →
      sendMessage (c : Controller) req tid tc tu tMsg tAsst =
        ((none, some ("failed to get conversation: " ++
            ("conversation " ++ id ++ " not found"))), c)) := by
  have hg : getConversation c id = .error ("conversation " ++ id ++ " not found") := by
    rw [getConversation, h]
  refine ⟨?_, deleteConversation_none c id h, fun t => clearConversation_none c id t h,
    ?_, ?_⟩
  · rw [getConversationS, hg]
  · rw [getConversationSummaryS, getConversationSummary, hg]
  · intro req tid tc tu tMsg tAsst hreq
    have hcond : req.conversationId ≠ "" := by
      rw [hreq]
      exact hne
    have hge : getConversation c req.conversationId =
        .error ("conversation " ++ id ++ " not found") := by
      rw [hreq, hg]
    have hres : resolveConversation c req tid tc tu =
        .error ("failed to get conversation: " ++ ("conversation " ++ id ++ " not found")) := by
      rw [resolveConversation, if_pos hcond, hge]
    exact sendMessage_resolve_error c req tid tc tu tMsg tAsst _ hres

/-- Witness for C6 on the empty controller with identifier `"X"`. -/
theorem c6_witness :
    getConversationS (NewController backendDown none) "X" =
      (.error ("conversation " ++ "X" ++ " not found"), NewController backendDown none) ∧
    deleteConversation (NewController backendDown none) "X" =
      (some ("conversation " ++ "X" ++ " not found"), NewController backendDown none) ∧
    (∀ t, clearConversation (NewController backendDown none) "X" t =
      (some ("conversation " ++ "X" ++ " not found"), NewController backendDown none)) ∧
    getConversationSummaryS (NewController backendDown none) "X" =
      (.error ("conversation " ++ "X" ++ " not found"), NewController backendDown none) ∧
    (∀ req tid tc tu tMsg tAsst, req.conversationId = "X" →
      sendMessage (NewController backendDown none) req tid tc tu tMsg tAsst =
        ((none, some ("failed to get conversation: " ++
            ("conversation " ++ "X" ++ " not found"))), NewController backendDown none)) :=
  c6_absent_id_errors_leave_state_unchanged (NewController backendDown none) "X" rfl
    (by decide)

/-! ### Claim C7: timestamp invariant and refreshes -/

/-- **C7.** (i) In every state reachable by running a trace of controller
operations from a fresh controller under a monotone clock, every stored
conversation satisfies `updatedAt ≥ createdAt`.  (ii) Every append performed
by `SendMessage` refreshes the conversation's `updatedAt` to the append's
clock reading (the user-append reading on backend failure, the
assistant-append reading on success).  (iii) Every truncate performed by
`ClearConversation` refreshes `updatedAt` to its clock reading. -/
theorem c7_updatedAt_ge_createdAt_and_refreshed :
    (∀ (b : Backend) (cfg : Option ControllerConfig) (ops : List Op),
      traceMono 0 ops →
      ∀ kv ∈ (runOps (NewController b cfg) ops).conversations,
        kv.2.createdAt ≤ kv.2.updatedAt) ∧
    (∀ (c : Controller) (req : ChatRequest) (tid tc tu tMsg tAsst : Nat)
        (key : String) (conv : Conversation) (c1 : Controller),
      resolveConversation c req tid tc tu = .ok (key, conv, c1) →
      (∀ e, c.backend.chatCompletion
          (sendAiRequest c req (conv.messages ++ [userMessageOf req])) = .error e →
        lookupConv (sendMessage c req tid tc tu tMsg tAsst).2.conversations key =
          some { conv with messages := conv.messages ++ [userMessageOf req],
                           updatedAt := tMsg }) ∧
      (∀ resp choice0 rest, c.backend.chatCompletion
          (sendAiRequest c req (conv.messages ++ [userMessageOf req])) = .ok resp →
        resp.choices = choice0 :: rest →
        lookupConv (sendMessage c req tid tc tu tMsg tAsst).2.conversations key =
          some { conv with
                   messages := conv.messages ++ [userMessageOf req, choice0.message],
                   updatedAt := tAsst })) ∧
    (∀ (c : Controller) (id : String) (t : Nat) (conv : Conversation),
      lookupConv c.conversations id = some conv →
      lookupConv (clearConversation c id t).2.conversations id =
        some { conv with
                 messages := conv.messages.filter (fun msg => msg.role == "system"),
                 updatedAt := t }) := by
  refine ⟨?_, ?_, ?_⟩
  · intro b cfg ops htm kv hkv
    have hstart : timeInvL 0 (NewController b cfg).conversations := by
      intro kv' hkv'
      simp [NewController] at hkv'
    exact timeInv_runOps ops (NewController b cfg) 0 hstart htm kv hkv
  · intro c req tid tc tu tMsg tAsst key conv c1 hres
    constructor
    · intro e hb
      rw [sendMessage_backend_error c req tid tc tu tMsg tAsst key conv c1 e hres hb]
      exact lookupConv_insertConv_self _ _ _
    · intro resp choice0 rest hb hch
      rw [sendMessage_success c req tid tc tu tMsg tAsst key conv c1 resp choice0 rest
        hres hb hch]
      exact lookupConv_insertConv_self _ _ _
  · intro c id t conv h
    rw [clearConversation_some c id t conv h]
    exact lookupConv_insertConv_self _ _ _

/-- Witness for C7: (i) a one-create trace yields `createdAt 2 ≤ updatedAt 3`;
(ii) the failed and successful dispatches on conversation `"A"` leave
`updatedAt` at the respective readings 10 and 11; (iii) a clear leaves it at
its reading 9. -/
theorem c7_witness :
    ("conv_1_0",
      ({ id := "conv_1_0", messages := [{ role := "system", content := "s" }],
         createdAt := 2, updatedAt := 3, metadata := [] } : Conversation)).2.createdAt ≤
      ("conv_1_0",
        ({ id := "conv_1_0", messages := [{ role := "system", content := "s" }],
           createdAt := 2, updatedAt := 3, metadata := [] } : Conversation)).2.updatedAt ∧
    lookupConv (sendMessage ctrlDownA reqFixA 0 0 0 10 11).2.conversations "A" =
      some { convFixA with messages := convFixA.messages ++ [userMessageOf reqFixA],
                           updatedAt := 10 } ∧
    lookupConv (sendMessage ctrlOkA reqFixA 0 0 0 10 11).2.conversations "A" =
      some { convFixA with
               messages := convFixA.messages ++
                 [userMessageOf reqFixA, { role := "assistant", content := "hi" }],
               updatedAt := 11 } ∧
    lookupConv (clearConversation ctrlC5 "B" 9).2.conversations "B" =
      some { convC5 with
               messages := convC5.messages.filter (fun msg => msg.role == "system"),
               updatedAt := 9 } :=
  ⟨c7_updatedAt_ge_createdAt_and_refreshed.1 backendDown none [Op.create "s" 1 2 3]
      (by simp [traceMono, chainFrom, opTimes, opEnd])
      ("conv_1_0",
        { id := "conv_1_0", messages := [{ role := "system", content := "s" }],
          createdAt := 2, updatedAt := 3, metadata := [] })
      (by decide),
   (c7_updatedAt_ge_createdAt_and_refreshed.2.1 ctrlDownA reqFixA 0 0 0 10 11
      "A" convFixA ctrlDownA rfl).1 "backend down" rfl,
   (c7_updatedAt_ge_createdAt_and_refreshed.2.1 ctrlOkA reqFixA 0 0 0 10 11
      "A" convFixA ctrlOkA rfl).2 respFix
      { index := 0, message := { role := "assistant", content := "hi" }, finishReason := "stop" }
      [{ index := 1, message := { role := "assistant", content := "alt" }, finishReason := "stop" }]
      rfl rfl,
   c7_updatedAt_ge_createdAt_and_refreshed.2.2 ctrlC5 "B" 9 convC5 rfl⟩

/-! ### Claim C9: read operations do not mutate -/

/-- **C9.** `ListConversations` and `GetConversation` mutate no controller
state: the state they pass on is the input state, so every conversation's
`messages`, `createdAt`, `updatedAt` and `metadata`, and the collection
membership, are unchanged. -/
theorem c9_read_operations_do_not_mutate (c : Controller) (id : String) :
    (getConversationS c id).2 = c ∧
    (listConversationsS c).2 = c ∧
    (getConversationS c id).2.conversations = c.conversations ∧
    (listConversationsS c).2.conversations = c.conversations ∧
    (∀ k, lookupConv (getConversationS c id).2.conversations k =
      lookupConv c.conversations k) ∧
    (∀ k, lookupConv (listConversationsS c).2.conversations k =
      lookupConv c.conversations k) :=
  ⟨rfl, rfl, rfl, rfl, fun _ => rfl, fun _ => rfl⟩

/-! ### Claim C10: statistics on an empty store -/

/-- **C10.** On a controller holding zero conversations, `GetStats` reports
`TotalConversations = 0` and `TotalMessages = 0`, but `OldestConversation`
is the clock reading taken at call time while `NewestConversation` is the
zero time value — the two timestamp fields are asymmetric on an empty
store. -/
theorem c10_stats_empty_store (c : Controller) (now : Nat)
    (h : c.conversations = []) :
    getStats c now =
      { totalConversations := 0, totalMessages := 0, backendName := c.backend.name,
        oldestConversation := now, newestConversation := 0 } := by
  rw [getStats, h]
  simp [statsLoop]

/-- Witness for C10 on the fresh (empty) controller at reading 42. -/
theorem c10_witness :
    getStats (NewController backendDown none) 42 =
      { totalConversations := 0, totalMessages := 0,
        backendName := (NewController backendDown none).backend.name,
        oldestConversation := 42, newestConversation := 0 } :=
  c10_stats_empty_store (NewController backendDown none) 42 rfl
